import Mathlib

/-!
Verification of the real-time notification subsystem of
TreasasSmartTaskManager (`src/routes.ts`, lines 301–348):
the WebSocket connection registry (`userConnections`), the AUTH binder
(`ws.on('message')` handler), the close-time cleanup (`ws.on('close')`
handler), and the event broadcaster (`broadcastToUser`).

The embedding is shallow: the `Map<string, Set<WebSocket>>` registry is an
association list from identity strings to lists of connection handles
(JS `Set` iteration order is insertion order, and `Set.add` is idempotent,
which `setAdd` mirrors); WebSocket handles are opaque naturals; the
`readyState` of each socket is an environment parameter; `JSON.stringify`
of an outbound event message is the concrete `serialize` function; a
broadcast is modelled by the list of (connection, serialized-bytes) write
attempts it issues.
-/

namespace SmartTaskManager

/-- A user identity: the registry key (`userId` strings in the source). -/
abbrev Identity := String

/-- An opaque WebSocket connection handle. -/
abbrev Conn := Nat

/-- The `ws.readyState` values of a WebSocket. -/
inductive ReadyState where
  | CONNECTING
  | OPEN
  | CLOSING
  | CLOSED
deriving DecidableEq, BEq, Repr

/-- The `userConnections : Map<string, Set<WebSocket>>` registry
(`src/routes.ts:305`), as an association list in Map insertion order. -/
structure Registry where
  entries : List (Identity × List Conn)
deriving DecidableEq, Repr

/-- The registry at process start: an empty map. -/
def Registry.empty : Registry := ⟨[]⟩

/-- Semantics of `Map.get(i)`: the first (unique, for a real `Map`) entry with key `i`. -/
def lookup : List (Identity × List Conn) → Identity → Option (List Conn)
  | [], _ => none
  | e :: rest, i => if e.1 = i then some e.2 else lookup rest i

/-- Source `userConnections.get(i)`. -/
def Registry.get? (r : Registry) (i : Identity) : Option (List Conn) :=
  lookup r.entries i

/-- The live connection set for `i`, empty when the map has no entry. -/
def connectionsFor (r : Registry) (i : Identity) : List Conn :=
  (r.get? i).getD []

/-- JS `Set.add`: idempotent insertion, preserving insertion order. -/
def setAdd (s : List Conn) (c : Conn) : List Conn :=
  if c ∈ s then s else s ++ [c]

/-- The effect on the underlying entry list of the AUTH-handler body
(`src/routes.ts:316-319`): `if (!userConnections.has(u)) set(u, new Set());
userConnections.get(u)!.add(ws)` — update the entry for `i` if present,
otherwise append a fresh singleton entry (Map insertion order). -/
def insertWith : List (Identity × List Conn) → Identity → Conn →
    List (Identity × List Conn)
  | [], i, c => [(i, [c])]
  | e :: rest, i, c =>
      if e.1 = i then (e.1, setAdd e.2 c) :: rest
      else e :: insertWith rest i c

/-- Source `register(identity, connection)`: the AUTH-handler registry mutation. -/
def register (r : Registry) (i : Identity) (c : Conn) : Registry :=
  ⟨insertWith r.entries i c⟩

/-- The effect on the entry list of the close handler
(`src/routes.ts:326-334`): for every entry, delete `c` from its set and
drop the entry when the set becomes empty. -/
def removeConn : List (Identity × List Conn) → Conn →
    List (Identity × List Conn)
  | [], _ => []
  | e :: rest, c =>
      if (e.2.erase c).isEmpty then removeConn rest c
      else (e.1, e.2.erase c) :: removeConn rest c

/-- Source `unregister(connection)`: the `ws.on('close')` handler, which scans all
identities' sets and removes the connection from each. -/
def unregister (r : Registry) (c : Conn) : Registry :=
  ⟨removeConn r.entries c⟩

/-- Remove `c` from the entry for `bound` only, dropping the entry when it
empties: helper for `specUnregisterRecorded`. -/
def removeFromBound : List (Identity × List Conn) → Identity → Conn →
    List (Identity × List Conn)
  | [], _, _ => []
  | e :: rest, bound, c =>
      if e.1 = bound then
        (if (e.2.erase c).isEmpty then rest else (e.1, e.2.erase c) :: rest)
      else e :: removeFromBound rest bound c

/-- The unregister mechanism as the claim words it (an identity recorded on
the connection at bind time drives the removal, so only that identity's
entry is touched). This is the comparison point for the refinement claim;
the source's close handler is `unregister`, which scans every entry. -/
def specUnregisterRecorded (r : Registry) (bound : Identity) (c : Conn) :
    Registry :=
  ⟨removeFromBound r.entries bound c⟩

/-- The well-formedness a JS `Map<string, Set<WebSocket>>` plus the
subsystem's own maintenance guarantees: unique keys, no entry holding an
empty set, and duplicate-free sets. -/
def Registry.WF (r : Registry) : Prop :=
  (r.entries.map Prod.fst).Nodup ∧ (∀ e ∈ r.entries, e.2 ≠ []) ∧
    (∀ e ∈ r.entries, e.2.Nodup)

instance (r : Registry) : Decidable r.WF := by
  unfold Registry.WF
  infer_instance

/-- The outcome of `JSON.parse` plus field access on an inbound WebSocket
message: either a parse failure, or a JSON object with a `type` field and
an optional string `userId` field. -/
inductive ParsedMsg where
  | json (ty : String) (userId : Option String)
  | parseError
deriving DecidableEq, Repr

/-- JS truthiness of `data.userId`: an absent field or the empty string is
falsy; a non-empty string is truthy. -/
def truthyUserId : Option String → Option String
  | some s => if s = "" then none else some s
  | none => none

/-- The `ws.on('message')` handler (`src/routes.ts:310-324`): on parse
failure the error is caught and logged, the registry untouched; on
`data.type === 'AUTH' && data.userId` the connection is registered under
`data.userId`; any other shape is ignored. -/
def onMessage (r : Registry) (ws : Conn) (m : ParsedMsg) : Registry :=
  match m with
  | .parseError => r
  | .json ty uid =>
      if ty = "AUTH" then
        match truthyUserId uid with
        | some u => register r u ws
        | none => r
      else r

/-- The payload of an outbound event message. -/
inductive EventPayload where
  | idPayload (id : Nat)
  | sharePayload (taskId : Nat) (sharedBy : String)
  | rawPayload (s : String)
deriving DecidableEq, Repr

/-- An outbound event message `{ type, payload }`. -/
structure Event where
  type : String
  payload : EventPayload
deriving DecidableEq, Repr

/-- Serialization (`JSON.stringify`) of a payload. -/
def serializePayload : EventPayload → String
  | .idPayload id => "\x7b\"id\":" ++ toString id ++ "\x7d"
  | .sharePayload t s =>
      "\x7b\"taskId\":" ++ toString t ++ ",\"sharedBy\":\"" ++ s ++ "\"\x7d"
  | .rawPayload s => s

/-- Serialization `JSON.stringify(message)` of an event message (`src/routes.ts:341`). -/
def serialize (e : Event) : String :=
  "\x7b\"type\":\"" ++ e.type ++ "\",\"payload\":" ++
    serializePayload e.payload ++ "\x7d"

/-- The transport environment: each socket's current `readyState`. -/
structure Env where
  readyState : Conn → ReadyState

/-- Source `broadcastToUser(userId, message)` (`src/routes.ts:338-348`): look up
the user's connection set; if present, stringify the message once and
`send` those same bytes to every connection whose `readyState` is OPEN.
The result is the list of issued write attempts, in set-iteration order. -/
def broadcastToUser (env : Env) (r : Registry) (userId : Identity)
    (message : Event) : List (Conn × String) :=
  match r.get? userId with
  | none => []
  | some conns =>
      let messageStr := serialize message
      (conns.filter (fun ws => env.readyState ws == ReadyState.OPEN)).map
        (fun ws => (ws, messageStr))

/-- The event emissions of the success path of the
`POST /api/tasks/:id/share` handler (`src/routes.ts:121-144`): after
`storage.shareTask` succeeds it calls `broadcastToUser(shareData.userId,
{ type: 'TASK_SHARED', payload: { taskId, sharedBy: userId } })` exactly
once, where `userId` is the authenticated actor and `shareData.userId`
the share recipient from the request body. -/
def shareHandlerEmits (actorId : Identity) (taskId : Nat)
    (shareUserId : Identity) : List (Identity × Event) :=
  [(shareUserId, ⟨"TASK_SHARED", EventPayload.sharePayload taskId actorId⟩)]

/-- The write attempts of the share handler's broadcast against a given
registry and transport state. -/
def shareHandler (env : Env) (r : Registry) (actorId : Identity)
    (taskId : Nat) (shareUserId : Identity) : List (Conn × String) :=
  broadcastToUser env r shareUserId
    ⟨"TASK_SHARED", EventPayload.sharePayload taskId actorId⟩

/-- A registry operation, as the claims' register/unregister vocabulary:
the AUTH-binding registration and the close-time removal. -/
inductive RegOp where
  | reg (i : Identity) (c : Conn)
  | unreg (c : Conn)
deriving DecidableEq, Repr

/-- Apply one registry operation. -/
def applyRegOp (r : Registry) : RegOp → Registry
  | .reg i c => register r i c
  | .unreg c => unregister r c

/-- Apply a sequence of registry operations, oldest first. -/
def applyRegOps (r : Registry) (ops : List RegOp) : Registry :=
  ops.foldl applyRegOp r

/-- Connection `c` only ever registers under identity `i` in `ops`: the
"binds once" discipline the spec assumes of well-behaved clients. -/
def boundOnly (ops : List RegOp) (c : Conn) (i : Identity) : Bool :=
  ops.all (fun op =>
    match op with
    | .reg i' c' => c' != c || i' == i
    | .unreg _ => true)

/-- The system state seen by the subsystem: the registry, plus the set of
connections whose transport has closed (a closed socket's `readyState` is
no longer OPEN and never becomes OPEN again). -/
structure SysState where
  registry : Registry
  closedConns : List Conn
deriving DecidableEq, Repr

/-- The state at server start: empty registry, no closed connection. -/
def initState : SysState := ⟨Registry.empty, []⟩

/-- The transport environment induced by a system state. -/
def envOf (s : SysState) : Env :=
  ⟨fun c => if c ∈ s.closedConns then ReadyState.CLOSED else ReadyState.OPEN⟩

/-- One interleaving-point action of the subsystem: an inbound WebSocket
message, a connection close (which fires the `ws.on('close')` cleanup),
or a mutation handler invoking `broadcastToUser`. -/
inductive Op where
  | message (c : Conn) (m : ParsedMsg)
  | closeConn (c : Conn)
  | bcast (u : Identity) (e : Event)
deriving DecidableEq, Repr

/-- One step of the event loop: the successor state together with the
write attempts the step issues. -/
def step (s : SysState) : Op → SysState × List (Conn × String)
  | .message c m => (⟨onMessage s.registry c m, s.closedConns⟩, [])
  | .closeConn c => (⟨unregister s.registry c, c :: s.closedConns⟩, [])
  | .bcast u e => (s, broadcastToUser (envOf s) s.registry u e)

/-- Run a sequence of actions, oldest first, accumulating the write log
in issue order. -/
def run (s : SysState) : List Op → SysState × List (Conn × String)
  | [] => (s, [])
  | op :: ops =>
      let st := step s op
      let rest := run st.1 ops
      (rest.1, st.2 ++ rest.2)

@[simp] lemma readyState_beq_iff {a b : ReadyState} :
    (a == b) = true ↔ a = b := by
  cases a <;> cases b <;> decide

lemma mem_setAdd {a c : Conn} {s : List Conn} :
    a ∈ setAdd s c ↔ a ∈ s ∨ a = c := by
  unfold setAdd
  split
  · next h =>
    constructor
    · exact Or.inl
    · rintro (ha | rfl)
      · exact ha
      · exact h
  · simp [List.mem_append]

lemma setAdd_ne_nil {s : List Conn} {c : Conn} : setAdd s c ≠ [] := by
  unfold setAdd
  split
  · next h => exact List.ne_nil_of_mem h
  · simp

lemma lookup_insertWith_self (l : List (Identity × List Conn))
    (i : Identity) (c : Conn) :
    lookup (insertWith l i c) i = some (setAdd ((lookup l i).getD []) c) := by
  induction l with
  | nil => simp [insertWith, lookup, setAdd]
  | cons e rest ih =>
    by_cases h : e.1 = i
    · simp [insertWith, lookup, h]
    · simp [insertWith, lookup, h, ih]

lemma lookup_insertWith_ne (l : List (Identity × List Conn))
    {i j : Identity} (c : Conn) (h : j ≠ i) :
    lookup (insertWith l i c) j = lookup l j := by
  induction l with
  | nil => simp [insertWith, lookup, Ne.symm h]
  | cons e rest ih =>
    by_cases he : e.1 = i
    · simp [insertWith, lookup, he, Ne.symm h, h]
    · by_cases hej : e.1 = j
      · simp [insertWith, lookup, he, hej, h]
      · simp [insertWith, lookup, he, hej, ih]

lemma connectionsFor_register_self (r : Registry) (i : Identity) (c : Conn) :
    connectionsFor (register r i c) i = setAdd (connectionsFor r i) c := by
  unfold connectionsFor register Registry.get?
  simp [lookup_insertWith_self]

lemma connectionsFor_register_ne (r : Registry) {i j : Identity} (c : Conn)
    (h : j ≠ i) :
    connectionsFor (register r i c) j = connectionsFor r j := by
  unfold connectionsFor register Registry.get?
  simp [lookup_insertWith_ne _ _ h]

lemma mem_connectionsFor_register {r : Registry} {i i₀ : Identity}
    {c c₀ : Conn} (h : c ∈ connectionsFor (register r i₀ c₀) i) :
    c ∈ connectionsFor r i ∨ (i = i₀ ∧ c = c₀) := by
  by_cases hi : i = i₀
  · subst hi
    rw [connectionsFor_register_self] at h
    rcases mem_setAdd.mp h with hm | rfl
    · exact Or.inl hm
    · exact Or.inr ⟨rfl, rfl⟩
  · rw [connectionsFor_register_ne _ _ hi] at h
    exact Or.inl h

lemma mem_removeConn {l : List (Identity × List Conn)} {c : Conn}
    {e' : Identity × List Conn} (h : e' ∈ removeConn l c) :
    ∃ e ∈ l, e'.1 = e.1 ∧ e'.2 = e.2.erase c := by
  induction l with
  | nil => simp [removeConn] at h
  | cons e rest ih =>
    unfold removeConn at h
    split at h
    · obtain ⟨e₀, he₀, hfst, hsnd⟩ := ih h
      exact ⟨e₀, List.mem_cons_of_mem _ he₀, hfst, hsnd⟩
    · rcases List.mem_cons.mp h with rfl | hmem
      · exact ⟨e, List.mem_cons_self _ _, rfl, rfl⟩
      · obtain ⟨e₀, he₀, hfst, hsnd⟩ := ih hmem
        exact ⟨e₀, List.mem_cons_of_mem _ he₀, hfst, hsnd⟩

lemma keys_removeConn_sublist (l : List (Identity × List Conn)) (c : Conn) :
    List.Sublist ((removeConn l c).map Prod.fst) (l.map Prod.fst) := by
  induction l with
  | nil => simp [removeConn]
  | cons e rest ih =>
    unfold removeConn
    split
    · exact ih.trans (List.sublist_cons_self _ _)
    · simpa using List.Sublist.cons₂ e.1 ih

lemma lookup_eq_none_of_not_mem {l : List (Identity × List Conn)}
    {i : Identity} (h : i ∉ l.map Prod.fst) : lookup l i = none := by
  induction l with
  | nil => rfl
  | cons e rest ih =>
    simp only [List.map_cons, List.mem_cons] at h
    push_neg at h
    simp [lookup, Ne.symm h.1, ih h.2]

lemma lookup_removeConn {l : List (Identity × List Conn)} {c : Conn}
    {i : Identity} (hk : (l.map Prod.fst).Nodup) :
    (lookup (removeConn l c) i).getD [] =
      ((lookup l i).getD []).erase c := by
  induction l with
  | nil => simp [removeConn, lookup]
  | cons e rest ih =>
    simp only [List.map_cons, List.nodup_cons] at hk
    by_cases hi : e.1 = i
    · unfold removeConn
      split
      · next hemp =>
        have hnone : lookup (removeConn rest c) i = none := by
          apply lookup_eq_none_of_not_mem
          intro hm
          exact hk.1 (hi ▸ (keys_removeConn_sublist rest c).subset hm)
        have herase : e.2.erase c = [] := List.isEmpty_iff.mp hemp
        simp [lookup, hi, hnone, herase]
      · next hemp => simp [lookup, hi]
    · unfold removeConn
      split
      · simpa [lookup, hi] using ih hk.2
      · simpa [lookup, hi] using ih hk.2

lemma connectionsFor_unregister {r : Registry} (c : Conn) (i : Identity)
    (hk : (r.entries.map Prod.fst).Nodup) :
    connectionsFor (unregister r c) i = (connectionsFor r i).erase c := by
  unfold connectionsFor unregister Registry.get?
  exact lookup_removeConn hk

lemma keys_insertWith (l : List (Identity × List Conn)) (i : Identity)
    (c : Conn) :
    (insertWith l i c).map Prod.fst =
      if i ∈ l.map Prod.fst then l.map Prod.fst
      else l.map Prod.fst ++ [i] := by
  induction l with
  | nil => simp [insertWith]
  | cons e rest ih =>
    by_cases h : e.1 = i
    · simp [insertWith, h]
    · simp only [insertWith, if_neg h, List.map_cons, ih]
      have hcond : (i ∈ e.1 :: rest.map Prod.fst) ↔ i ∈ rest.map Prod.fst := by
        simp [List.mem_cons, Ne.symm h]
      by_cases hm : i ∈ rest.map Prod.fst
      · rw [if_pos hm, if_pos (hcond.mpr hm)]
      · rw [if_neg hm, if_neg (fun hh => hm (hcond.mp hh)), List.cons_append]

lemma nodup_keys_insertWith {l : List (Identity × List Conn)}
    {i : Identity} {c : Conn} (h : (l.map Prod.fst).Nodup) :
    ((insertWith l i c).map Prod.fst).Nodup := by
  rw [keys_insertWith]
  split
  · exact h
  · next hm =>
    exact h.append (List.nodup_singleton i) (List.disjoint_singleton.mpr hm)

lemma nodup_keys_removeConn {l : List (Identity × List Conn)} {c : Conn}
    (h : (l.map Prod.fst).Nodup) :
    ((removeConn l c).map Prod.fst).Nodup :=
  h.sublist (keys_removeConn_sublist l c)

lemma mem_connectionsFor_unregister {r : Registry} {c c₀ : Conn}
    {i : Identity} (hk : (r.entries.map Prod.fst).Nodup)
    (h : c ∈ connectionsFor (unregister r c₀) i) :
    c ∈ connectionsFor r i := by
  rw [connectionsFor_unregister c₀ i hk] at h
  exact List.mem_of_mem_erase h

lemma sets_ne_nil_insertWith {l : List (Identity × List Conn)}
    {i : Identity} {c : Conn} (h : ∀ e ∈ l, e.2 ≠ []) :
    ∀ e ∈ insertWith l i c, e.2 ≠ [] := by
  induction l with
  | nil =>
    intro e he
    simp only [insertWith, List.mem_singleton] at he
    subst he
    simp
  | cons e₀ rest ih =>
    intro e he
    unfold insertWith at he
    split at he
    · rcases List.mem_cons.mp he with rfl | hmem
      · exact setAdd_ne_nil
      · exact h e (List.mem_cons_of_mem _ hmem)
    · rcases List.mem_cons.mp he with rfl | hmem
      · exact h e (List.mem_cons_self _ _)
      · exact ih (fun e' he' => h e' (List.mem_cons_of_mem _ he')) e hmem

lemma sets_ne_nil_removeConn {l : List (Identity × List Conn)} {c : Conn} :
    ∀ e ∈ removeConn l c, e.2 ≠ [] := by
  induction l with
  | nil => intro e he; simp [removeConn] at he
  | cons e₀ rest ih =>
    intro e he
    unfold removeConn at he
    split at he
    · exact ih e he
    · next hemp =>
      rcases List.mem_cons.mp he with rfl | hmem
      · exact fun hh => hemp (List.isEmpty_iff.mpr hh)
      · exact ih e hmem

lemma lookup_mem {l : List (Identity × List Conn)} {i : Identity}
    {s : List Conn} (h : lookup l i = some s) : (i, s) ∈ l := by
  induction l with
  | nil => simp [lookup] at h
  | cons e rest ih =>
    unfold lookup at h
    split at h
    · next he =>
      obtain rfl := Option.some.inj h
      exact he ▸ List.mem_cons_self _ _
    · exact List.mem_cons_of_mem _ (ih h)

lemma nodup_setAdd {s : List Conn} {c : Conn} (h : s.Nodup) :
    (setAdd s c).Nodup := by
  unfold setAdd
  split
  · exact h
  · next hn =>
    exact h.append (List.nodup_singleton c) (List.disjoint_singleton.mpr hn)

lemma sets_nodup_insertWith {l : List (Identity × List Conn)}
    {i : Identity} {c : Conn} (h : ∀ e ∈ l, e.2.Nodup) :
    ∀ e ∈ insertWith l i c, e.2.Nodup := by
  induction l with
  | nil =>
    intro e he
    simp only [insertWith, List.mem_singleton] at he
    subst he
    simp
  | cons e₀ rest ih =>
    intro e he
    unfold insertWith at he
    split at he
    · rcases List.mem_cons.mp he with rfl | hmem
      · exact nodup_setAdd (h e₀ (List.mem_cons_self _ _))
      · exact h e (List.mem_cons_of_mem _ hmem)
    · rcases List.mem_cons.mp he with rfl | hmem
      · exact h e (List.mem_cons_self _ _)
      · exact ih (fun e' he' => h e' (List.mem_cons_of_mem _ he')) e hmem

lemma sets_nodup_removeConn {l : List (Identity × List Conn)} {c : Conn}
    (h : ∀ e ∈ l, e.2.Nodup) : ∀ e ∈ removeConn l c, e.2.Nodup := by
  intro e he
  obtain ⟨e₀, he₀, _, hsnd⟩ := mem_removeConn he
  exact hsnd ▸ List.Nodup.erase c (h e₀ he₀)

lemma wf_empty : Registry.empty.WF := by
  refine ⟨?_, ?_, ?_⟩ <;> simp [Registry.empty]

lemma wf_register {r : Registry} (h : r.WF) (i : Identity) (c : Conn) :
    (register r i c).WF :=
  ⟨nodup_keys_insertWith h.1, sets_ne_nil_insertWith h.2.1,
    sets_nodup_insertWith h.2.2⟩

lemma wf_unregister {r : Registry} (h : r.WF) (c : Conn) :
    (unregister r c).WF :=
  ⟨nodup_keys_removeConn h.1, sets_ne_nil_removeConn,
    sets_nodup_removeConn h.2.2⟩

lemma wf_applyRegOp {r : Registry} (h : r.WF) (op : RegOp) :
    (applyRegOp r op).WF := by
  cases op with
  | reg i c => exact wf_register h i c
  | unreg c => exact wf_unregister h c

lemma wf_applyRegOps {r : Registry} (h : r.WF) (ops : List RegOp) :
    (applyRegOps r ops).WF := by
  induction ops generalizing r with
  | nil => exact h
  | cons op rest ih => exact ih (wf_applyRegOp h op)

/-- Provenance: a connection found in some identity's set after a run of
operations was either there at the start or was put there by a matching
`reg` operation of the run. -/
lemma mem_connectionsFor_applyRegOps {ops : List RegOp} {r : Registry}
    {i : Identity} {c : Conn} (hk : (r.entries.map Prod.fst).Nodup)
    (h : c ∈ connectionsFor (applyRegOps r ops) i) :
    c ∈ connectionsFor r i ∨ RegOp.reg i c ∈ ops := by
  induction ops generalizing r with
  | nil => exact Or.inl h
  | cons op rest ih =>
    have hstep : c ∈ connectionsFor (applyRegOp r op) i ∨
        RegOp.reg i c ∈ rest := by
      apply ih
      · cases op with
        | reg i₀ c₀ => exact nodup_keys_insertWith hk
        | unreg c₀ => exact nodup_keys_removeConn hk
      · exact h
    rcases hstep with hmem | hin
    · cases op with
      | reg i₀ c₀ =>
        rcases mem_connectionsFor_register hmem with hm | ⟨rfl, rfl⟩
        · exact Or.inl hm
        · exact Or.inr (List.mem_cons_self _ _)
      | unreg c₀ =>
        exact Or.inl (mem_connectionsFor_unregister hk hmem)
    · exact Or.inr (List.mem_cons_of_mem _ hin)

lemma broadcast_payload {env : Env} {r : Registry} {u : Identity}
    {e : Event} {w : Conn × String} (h : w ∈ broadcastToUser env r u e) :
    w.2 = serialize e := by
  unfold broadcastToUser at h
  split at h
  · simp at h
  · obtain ⟨c, _, rfl⟩ := List.mem_map.mp h
    rfl

lemma broadcast_mem {env : Env} {r : Registry} {u : Identity} {e : Event}
    {c : Conn} (hc : c ∈ connectionsFor r u)
    (ho : env.readyState c = ReadyState.OPEN) :
    (c, serialize e) ∈ broadcastToUser env r u e := by
  unfold connectionsFor at hc
  unfold broadcastToUser
  cases hl : r.get? u with
  | none => rw [hl] at hc; simp at hc
  | some conns =>
    rw [hl] at hc
    simp only [Option.getD_some] at hc
    simp only
    exact List.mem_map.mpr
      ⟨c, List.mem_filter.mpr ⟨hc, by simp [ho]⟩, rfl⟩

lemma broadcast_target {env : Env} {r : Registry} {u : Identity} {e : Event}
    {c : Conn} {σ : String} (h : (c, σ) ∈ broadcastToUser env r u e) :
    c ∈ connectionsFor r u ∧ env.readyState c = ReadyState.OPEN ∧
      σ = serialize e := by
  unfold broadcastToUser at h
  unfold connectionsFor
  cases hl : r.get? u with
  | none => rw [hl] at h; simp at h
  | some conns =>
    rw [hl] at h
    simp only at h
    obtain ⟨c', hc', heq⟩ := List.mem_map.mp h
    obtain ⟨hmem, hopen⟩ := List.mem_filter.mp hc'
    obtain ⟨rfl, rfl⟩ := Prod.mk.injEq .. ▸ heq
    refine ⟨by simp [hl, hmem], ?_, rfl⟩
    simpa using hopen

lemma broadcast_empty {env : Env} {r : Registry} {u : Identity} {e : Event}
    (h : connectionsFor r u = []) : broadcastToUser env r u e = [] := by
  unfold connectionsFor at h
  unfold broadcastToUser
  cases hl : r.get? u with
  | none => simp
  | some conns =>
    rw [hl] at h
    simp only [Option.getD_some] at h
    subst h
    simp

lemma run_append (s : SysState) (l1 l2 : List Op) :
    run s (l1 ++ l2) =
      ((run (run s l1).1 l2).1, (run s l1).2 ++ (run (run s l1).1 l2).2) := by
  induction l1 generalizing s with
  | nil => simp [run]
  | cons op rest ih =>
    simp only [List.cons_append, run, List.append_eq, ih, List.append_assoc]

lemma closed_mono_step {s : SysState} {c : Conn} (h : c ∈ s.closedConns)
    (op : Op) : c ∈ (step s op).1.closedConns := by
  cases op with
  | message c' m => exact h
  | closeConn c' => exact List.mem_cons_of_mem _ h
  | bcast u e => exact h

lemma closed_mono_run {s : SysState} {c : Conn} (h : c ∈ s.closedConns)
    (ops : List Op) : c ∈ (run s ops).1.closedConns := by
  induction ops generalizing s with
  | nil => exact h
  | cons op rest ih => exact ih (closed_mono_step h op)

lemma envOf_open_iff {s : SysState} {c : Conn} :
    (envOf s).readyState c = ReadyState.OPEN ↔ c ∉ s.closedConns := by
  unfold envOf
  by_cases h : c ∈ s.closedConns <;> simp [h]

lemma step_writes_not_closed {s : SysState} {op : Op} {w : Conn × String}
    (h : w ∈ (step s op).2) : w.1 ∉ s.closedConns := by
  cases op with
  | message c' m => simp [step] at h
  | closeConn c' => simp [step] at h
  | bcast u e =>
    have hb : (w.1, w.2) ∈ broadcastToUser (envOf s) s.registry u e := by
      simpa [step] using h
    exact envOf_open_iff.mp (broadcast_target hb).2.1

lemma closed_no_writes {ops : List Op} {s : SysState} {c : Conn}
    (h : c ∈ s.closedConns) : ∀ w ∈ (run s ops).2, w.1 ≠ c := by
  induction ops generalizing s with
  | nil => intro w hw; simp [run] at hw
  | cons op rest ih =>
    intro w hw
    simp only [run, List.mem_append] at hw
    rcases hw with hw | hw
    · intro heq
      exact step_writes_not_closed hw (heq ▸ h)
    · exact ih (closed_mono_step h op) w hw

example :
    connectionsFor (applyRegOps Registry.empty
      [RegOp.reg "u1" 0, RegOp.reg "u1" 1, RegOp.unreg 0]) "u1" = [1] := by
  decide

example :
    connectionsFor (applyRegOps Registry.empty
      [RegOp.reg "u1" 0, RegOp.reg "u2" 0]) "u2" = [0] := by
  decide

example :
    broadcastToUser ⟨fun _ => ReadyState.OPEN⟩
      (applyRegOps Registry.empty [RegOp.reg "u1" 0, RegOp.reg "u1" 1])
      "u1" ⟨"TASK_CREATED", EventPayload.idPayload 7⟩ =
    [(0, "\x7b\"type\":\"TASK_CREATED\",\"payload\":\x7b\"id\":7\x7d\x7d"),
     (1, "\x7b\"type\":\"TASK_CREATED\",\"payload\":\x7b\"id\":7\x7d\x7d")] := by
  decide

/-- C1: for every identity and event, `broadcastToUser` serializes the
event once and writes those same serialized bytes to every connection in
OPEN state in the identity's connection set at call time, and writes
nothing to any connection outside that set (in particular, to none that is
registered only under a different identity). -/
theorem broadcast_delivers_bytes_identical :
    ∀ (env : Env) (r : Registry) (u : Identity) (e : Event),
      (∀ w ∈ broadcastToUser env r u e, w.2 = serialize e) ∧
      (∀ c, c ∈ connectionsFor r u → env.readyState c = ReadyState.OPEN →
        (c, serialize e) ∈ broadcastToUser env r u e) ∧
      (∀ c σ, c ∉ connectionsFor r u → (c, σ) ∉ broadcastToUser env r u e) := by
  intro env r u e
  refine ⟨fun w hw => broadcast_payload hw,
    fun c hc ho => broadcast_mem hc ho, ?_⟩
  intro c σ hc hmem
  exact hc (broadcast_target hmem).1

/-- Witness for C1: a registry with `{ u1 ↦ \x7b0, 1\x7d, u2 ↦ \x7b3\x7d }`
and every socket OPEN — connection 0 of `u1` receives the serialized
event, and connection 3 (registered only under `u2`) receives nothing. -/
theorem broadcast_delivers_bytes_identical_witness :
    ((0 : Conn),
        serialize ⟨"TASK_UPDATED", EventPayload.idPayload 7⟩) ∈
      broadcastToUser ⟨fun _ => ReadyState.OPEN⟩
        (applyRegOps Registry.empty
          [RegOp.reg "u1" 0, RegOp.reg "u1" 1, RegOp.reg "u2" 3])
        "u1" ⟨"TASK_UPDATED", EventPayload.idPayload 7⟩ ∧
    ((3 : Conn),
        serialize ⟨"TASK_UPDATED", EventPayload.idPayload 7⟩) ∉
      broadcastToUser ⟨fun _ => ReadyState.OPEN⟩
        (applyRegOps Registry.empty
          [RegOp.reg "u1" 0, RegOp.reg "u1" 1, RegOp.reg "u2" 3])
        "u1" ⟨"TASK_UPDATED", EventPayload.idPayload 7⟩ :=
  ⟨(broadcast_delivers_bytes_identical _ _ _ _).2.1 0 (by decide) (by decide),
   (broadcast_delivers_bytes_identical _ _ _ _).2.2 3 _ (by decide)⟩

/-- C5: `broadcastToUser` writes to no connection whose state is not OPEN
(it is silently skipped), and broadcasting to an identity with no
registered connections issues no writes; the function is total, so neither
case raises. -/
theorem broadcast_skips_non_open_and_empty :
    ∀ (env : Env) (r : Registry) (u : Identity) (e : Event),
      (∀ c, env.readyState c ≠ ReadyState.OPEN →
        ∀ σ, (c, σ) ∉ broadcastToUser env r u e) ∧
      (connectionsFor r u = [] → broadcastToUser env r u e = []) := by
  intro env r u e
  constructor
  · intro c hno σ hmem
    exact hno (broadcast_target hmem).2.1
  · exact broadcast_empty

/-- Witness for C5: `u1` holds connections 0 and 2 but 2 is CLOSING, so 2
receives nothing; `ghost` has no entry, so broadcasting to it issues no
writes. -/
theorem broadcast_skips_non_open_and_empty_witness :
    (((2 : Conn),
        serialize ⟨"TASK_DELETED", EventPayload.idPayload 4⟩) ∉
      broadcastToUser
        ⟨fun c => if c = 2 then ReadyState.CLOSING else ReadyState.OPEN⟩
        (applyRegOps Registry.empty [RegOp.reg "u1" 0, RegOp.reg "u1" 2])
        "u1" ⟨"TASK_DELETED", EventPayload.idPayload 4⟩) ∧
    broadcastToUser
        ⟨fun c => if c = 2 then ReadyState.CLOSING else ReadyState.OPEN⟩
        (applyRegOps Registry.empty [RegOp.reg "u1" 0, RegOp.reg "u1" 2])
        "ghost" ⟨"TASK_DELETED", EventPayload.idPayload 4⟩ = [] :=
  ⟨(broadcast_skips_non_open_and_empty _ _ _ _).1 2 (by decide) _,
   (broadcast_skips_non_open_and_empty _ _ _ _).2 (by decide)⟩

/-- C2 counterexample: the AUTH handler does not enforce bind-once — after
`register("u1", 0)` then `register("u2", 0)` (a second AUTH from the same
socket with a different userId), connection 0 is in both `u1`'s and `u2`'s
sets simultaneously, refuting the invariant as stated. -/
theorem rebinding_counterexample :
    (0 : Conn) ∈ connectionsFor
      (applyRegOps Registry.empty [RegOp.reg "u1" 0, RegOp.reg "u2" 0])
      "u1" ∧
    (0 : Conn) ∈ connectionsFor
      (applyRegOps Registry.empty [RegOp.reg "u1" 0, RegOp.reg "u2" 0])
      "u2" ∧
    ("u1" : Identity) ≠ "u2" := by
  decide

/-- C2 amended: provided a connection only ever registers under a single
identity (the bind-once discipline the spec assumes, which the code does
not itself enforce), the connection never appears in a different
identity's set: any identity whose set contains it is that one identity. -/
theorem bound_once_single_identity :
    ∀ (ops : List RegOp) (c : Conn) (i : Identity),
      boundOnly ops c i = true →
      ∀ i', c ∈ connectionsFor (applyRegOps Registry.empty ops) i' →
        i' = i := by
  intro ops c i hb i' hmem
  rcases mem_connectionsFor_applyRegOps (by simp [Registry.empty]) hmem
    with h | h
  · simp [connectionsFor, Registry.get?, Registry.empty, lookup] at h
  · have := List.all_eq_true.mp hb _ h
    simpa using this

/-- Witness for C2 amended: connection 0 registers only under `u1` while
connection 3 registers under `u2`; the only identity whose set holds 0 is
`u1`. -/
theorem bound_once_single_identity_witness :
    boundOnly [RegOp.reg "u1" 0, RegOp.reg "u2" 3, RegOp.unreg 3] 0 "u1"
        = true ∧
    (0 : Conn) ∈ connectionsFor
      (applyRegOps Registry.empty
        [RegOp.reg "u1" 0, RegOp.reg "u2" 3, RegOp.unreg 3]) "u1" ∧
    ("u1" : Identity) = "u1" :=
  ⟨by decide, by decide,
   bound_once_single_identity
     [RegOp.reg "u1" 0, RegOp.reg "u2" 3, RegOp.unreg 3] 0 "u1"
     (by decide) "u1" (by decide)⟩

/-- C3: starting from the empty registry, no sequence of register and
unregister operations ever leaves an entry with an empty connection set in
the registry (the close handler deletes an entry the moment its set
empties), so membership testing per identity is never stale. -/
theorem no_empty_entry_invariant :
    ∀ (ops : List RegOp) (e : Identity × List Conn),
      e ∈ (applyRegOps Registry.empty ops).entries → e.2 ≠ [] := by
  intro ops e he
  exact (wf_applyRegOps wf_empty ops).2.1 e he

/-- Witness for C3: after registering and dropping connection 0 of `u1`
while `u2` keeps connection 3, the only entry left is `u2`'s, and it is
non-empty. -/
theorem no_empty_entry_invariant_witness :
    ("u2", [3]) ∈ (applyRegOps Registry.empty
      [RegOp.reg "u1" 0, RegOp.reg "u2" 3, RegOp.unreg 0]).entries ∧
    (("u2", [3]) : Identity × List Conn).2 ≠ [] :=
  ⟨by decide,
   no_empty_entry_invariant
     [RegOp.reg "u1" 0, RegOp.reg "u2" 3, RegOp.unreg 0]
     ("u2", [3]) (by decide)⟩

/-- C4: for a well-formed registry in which identity `i` currently has no
connections, `register(i, c)` followed by `unregister(c)` leaves
`connectionsFor(i)` empty — the close-time scan removes `c` and deletes
the emptied entry. -/
theorem register_unregister_empties :
    ∀ (r : Registry) (i : Identity) (c : Conn), r.WF →
      connectionsFor r i = [] →
      connectionsFor (unregister (register r i c) c) i = [] := by
  intro r i c hwf h
  have hwf' := wf_register hwf i c
  rw [connectionsFor_unregister c i hwf'.1, connectionsFor_register_self, h]
  simp [setAdd]

/-- Witness for C4: from the empty registry, register then unregister
connection 0 under `u1` and `u1`'s set is empty. -/
theorem register_unregister_empties_witness :
    Registry.empty.WF ∧ connectionsFor Registry.empty "u1" = [] ∧
    connectionsFor (unregister (register Registry.empty "u1" 0) 0) "u1"
      = [] :=
  ⟨by decide, by decide,
   register_unregister_empties _ _ _ (by decide) (by decide)⟩

/-- C6 counterexample: the AUTH handler records no bound identity on the
connection, and the close handler does not remove via a recorded identity.
Concretely: connection 0 sends AUTH for `u1` (binding once would record
`u1`), then AUTH for `u2`; the source close handler (`unregister`) removes
0 from `u2`'s set as well, which removal cannot arise from using the
recorded identity `u1` (`specUnregisterRecorded`, the claim's mechanism,
leaves 0 inside `u2`'s set). -/
theorem close_not_by_recorded_identity_counterexample :
    connectionsFor
      (unregister
        (onMessage
          (onMessage Registry.empty 0 (ParsedMsg.json "AUTH" (some "u1")))
          0 (ParsedMsg.json "AUTH" (some "u2"))) 0) "u2" = [] ∧
    connectionsFor
      (specUnregisterRecorded
        (onMessage
          (onMessage Registry.empty 0 (ParsedMsg.json "AUTH" (some "u1")))
          0 (ParsedMsg.json "AUTH" (some "u2"))) "u1" 0) "u2" = [0] ∧
    unregister
      (onMessage
        (onMessage Registry.empty 0 (ParsedMsg.json "AUTH" (some "u1")))
        0 (ParsedMsg.json "AUTH" (some "u2"))) 0 ≠
    specUnregisterRecorded
      (onMessage
        (onMessage Registry.empty 0 (ParsedMsg.json "AUTH" (some "u1")))
        0 (ParsedMsg.json "AUTH" (some "u2"))) "u1" 0 := by
  decide

/-- C6 amended: on an AUTH control message with non-empty `userId` the
handler calls `register(userId, connection)`; no bound identity is
recorded on the connection — instead the close handler removes the
connection from every identity's set by scanning the whole registry, so
after it runs the connection is in no set at all. -/
theorem auth_registers_close_scans :
    (∀ (r : Registry) (c : Conn) (uid : String), uid ≠ "" →
      onMessage r c (ParsedMsg.json "AUTH" (some uid)) = register r uid c) ∧
    (∀ (r : Registry) (c : Conn) (i : Identity), r.WF →
      c ∉ connectionsFor (unregister r c) i) := by
  constructor
  · intro r c uid h
    simp [onMessage, truthyUserId, h]
  · intro r c i hwf hmem
    rw [connectionsFor_unregister c i hwf.1] at hmem
    have hnd : (connectionsFor r i).Nodup := by
      unfold connectionsFor Registry.get?
      cases hl : lookup r.entries i with
      | none => simp
      | some s => simpa using hwf.2.2 (i, s) (lookup_mem hl)
    exact hnd.not_mem_erase hmem

/-- Witness for C6 amended: an AUTH for `u1` from connection 0 registers
it, and after the close-time scan connection 0 is gone from `u1`'s set. -/
theorem auth_registers_close_scans_witness :
    onMessage (applyRegOps Registry.empty [RegOp.reg "u1" 1]) 0
        (ParsedMsg.json "AUTH" (some "u1")) =
      register (applyRegOps Registry.empty [RegOp.reg "u1" 1]) "u1" 0 ∧
    (0 : Conn) ∉ connectionsFor
      (unregister (applyRegOps Registry.empty
        [RegOp.reg "u1" 1, RegOp.reg "u1" 0]) 0) "u1" :=
  ⟨auth_registers_close_scans.1 _ 0 "u1" (by decide),
   auth_registers_close_scans.2
     (applyRegOps Registry.empty [RegOp.reg "u1" 1, RegOp.reg "u1" 0])
     0 "u1" (by decide)⟩

/-- C7: a malformed or unparsable control message leaves the registry
unchanged — a parse failure is caught (no raise), and a parsed object that
is not of the AUTH shape (wrong `type`, or a falsy `userId`) falls through
without touching the registry, leaving the connection unbound. -/
theorem malformed_message_discarded :
    ∀ (r : Registry) (c : Conn),
      onMessage r c ParsedMsg.parseError = r ∧
      (∀ ty uid, ty ≠ "AUTH" ∨ truthyUserId uid = none →
        onMessage r c (ParsedMsg.json ty uid) = r) := by
  intro r c
  refine ⟨rfl, ?_⟩
  intro ty uid h
  unfold onMessage
  rcases h with h | h
  · simp [h]
  · by_cases hty : ty = "AUTH"
    · simp [hty, h]
    · simp [hty]

/-- Witness for C7: unparsable input and an AUTH with empty `userId` both
leave a concrete registry unchanged. -/
theorem malformed_message_discarded_witness :
    onMessage (applyRegOps Registry.empty [RegOp.reg "u1" 1]) 0
        ParsedMsg.parseError =
      applyRegOps Registry.empty [RegOp.reg "u1" 1] ∧
    onMessage (applyRegOps Registry.empty [RegOp.reg "u1" 1]) 0
        (ParsedMsg.json "AUTH" (some "")) =
      applyRegOps Registry.empty [RegOp.reg "u1" 1] :=
  ⟨(malformed_message_discarded _ 0).1,
   (malformed_message_discarded _ 0).2 "AUTH" (some "")
     (Or.inr (by decide))⟩

/-- C8: a successful share emits exactly one TASK_SHARED event whose
payload is `\x7b taskId, sharedBy: actor \x7d`, targeted at the identity of
the newly-granted recipient (`shareData.userId`); when the recipient
differs from the actor, no emission targets the actor's identity, and the
broadcast's writes go only to connections in the recipient's set. -/
theorem share_event_targets_recipient :
    ∀ (env : Env) (r : Registry) (actorId : Identity) (taskId : Nat)
        (shareUserId : Identity),
      shareHandlerEmits actorId taskId shareUserId =
        [(shareUserId,
          ⟨"TASK_SHARED", EventPayload.sharePayload taskId actorId⟩)] ∧
      (shareUserId ≠ actorId →
        ∀ p ∈ shareHandlerEmits actorId taskId shareUserId,
          p.1 ≠ actorId) ∧
      (∀ w ∈ shareHandler env r actorId taskId shareUserId,
        w.1 ∈ connectionsFor r shareUserId ∧
        w.2 = serialize
          ⟨"TASK_SHARED", EventPayload.sharePayload taskId actorId⟩) := by
  intro env r a t su
  refine ⟨rfl, ?_, ?_⟩
  · intro hne p hp
    simp only [shareHandlerEmits, List.mem_singleton] at hp
    subst hp
    exact hne
  · intro w hw
    have hb : (w.1, w.2) ∈ broadcastToUser env r su
        ⟨"TASK_SHARED", EventPayload.sharePayload t a⟩ := hw
    exact ⟨(broadcast_target hb).1, (broadcast_target hb).2.2⟩

/-- Witness for C8: connection 3 binds `u2`; actor `u1` shares task 5 —
the single emission targets `u2` (not `u1`), and the write to connection 3
lands inside `u2`'s connection set. -/
theorem share_event_targets_recipient_witness :
    shareHandlerEmits "u1" 5 "u2" =
      [("u2", ⟨"TASK_SHARED", EventPayload.sharePayload 5 "u1"⟩)] ∧
    (("u2",
      (⟨"TASK_SHARED", EventPayload.sharePayload 5 "u1"⟩ : Event)) :
        Identity × Event).1 ≠ "u1" ∧
    ((3 : Conn) ∈ connectionsFor
        (applyRegOps Registry.empty [RegOp.reg "u2" 3]) "u2" ∧
      serialize (⟨"TASK_SHARED", EventPayload.sharePayload 5 "u1"⟩ : Event) =
        serialize
          (⟨"TASK_SHARED", EventPayload.sharePayload 5 "u1"⟩ : Event)) :=
  ⟨(share_event_targets_recipient ⟨fun _ => ReadyState.OPEN⟩
      (applyRegOps Registry.empty [RegOp.reg "u2" 3]) "u1" 5 "u2").1,
   (share_event_targets_recipient ⟨fun _ => ReadyState.OPEN⟩
      (applyRegOps Registry.empty [RegOp.reg "u2" 3]) "u1" 5 "u2").2.1
     (by decide)
     ("u2", ⟨"TASK_SHARED", EventPayload.sharePayload 5 "u1"⟩) (by decide),
   (share_event_targets_recipient ⟨fun _ => ReadyState.OPEN⟩
      (applyRegOps Registry.empty [RegOp.reg "u2" 3]) "u1" 5 "u2").2.2
     (3, serialize (⟨"TASK_SHARED", EventPayload.sharePayload 5 "u1"⟩ :
        Event)) (by decide)⟩

lemma run_append_state (s : SysState) (l1 l2 : List Op) :
    (run s (l1 ++ l2)).1 = (run (run s l1).1 l2).1 := by
  rw [run_append]

lemma run_append_log (s : SysState) (l1 l2 : List Op) :
    (run s (l1 ++ l2)).2 = (run s l1).2 ++ (run (run s l1).1 l2).2 := by
  rw [run_append]

lemma run_cons_bcast_state (s : SysState) (u : Identity) (e : Event)
    (ops : List Op) :
    (run s (Op.bcast u e :: ops)).1 = (run s ops).1 := rfl

lemma run_cons_bcast_log (s : SysState) (u : Identity) (e : Event)
    (ops : List Op) :
    (run s (Op.bcast u e :: ops)).2 =
      broadcastToUser (envOf s) s.registry u e ++ (run s ops).2 := rfl

/-- C9: (1) a connection whose transport closed before a broadcast (the
close handler having unregistered it) receives no write from any later
broadcast; (2) a broadcast's writes are issued at its own step only and go
to no connection outside the target identity's set at call time, so a
connection registering later never receives the earlier event (no replay);
(3) for one identity, two broadcasts issued in order S1 then S2 are
delivered to each connection that is registered and open at both points in
that same relative order in the write log. -/
theorem broadcast_temporal_properties :
    (∀ (s : SysState) (ops : List Op) (c : Conn), c ∈ s.closedConns →
      ∀ w ∈ (run s ops).2, w.1 ≠ c) ∧
    (∀ (s : SysState) (u : Identity) (e : Event) (ops : List Op) (c : Conn),
      (run s (Op.bcast u e :: ops)).2 =
        broadcastToUser (envOf s) s.registry u e ++ (run s ops).2 ∧
      (c ∉ connectionsFor s.registry u →
        ∀ σ, (c, σ) ∉ broadcastToUser (envOf s) s.registry u e)) ∧
    (∀ (s : SysState) (l1 l2 l3 : List Op) (u : Identity) (e1 e2 : Event)
        (c : Conn),
      c ∈ connectionsFor (run s l1).1.registry u →
      c ∉ (run s l1).1.closedConns →
      c ∈ connectionsFor (run s (l1 ++ Op.bcast u e1 :: l2)).1.registry u →
      c ∉ (run s (l1 ++ Op.bcast u e1 :: l2)).1.closedConns →
      ∃ A B C,
        (run s (l1 ++ Op.bcast u e1 :: (l2 ++ Op.bcast u e2 :: l3))).2 =
          A ++ (c, serialize e1) :: (B ++ (c, serialize e2) :: C)) := by
  refine ⟨fun s ops c h => closed_no_writes h, ?_, ?_⟩
  · intro s u e ops c
    exact ⟨rfl, fun hc σ hmem => hc (broadcast_target hmem).1⟩
  · intro s l1 l2 l3 u e1 e2 c h1 h1o h2 h2o
    have hs2 : (run s (l1 ++ Op.bcast u e1 :: l2)).1 =
        (run (run s l1).1 l2).1 := by
      rw [run_append_state, run_cons_bcast_state]
    rw [hs2] at h2 h2o
    have hw1 : (c, serialize e1) ∈
        broadcastToUser (envOf (run s l1).1) (run s l1).1.registry u e1 :=
      broadcast_mem h1 (envOf_open_iff.mpr h1o)
    have hw2 : (c, serialize e2) ∈
        broadcastToUser (envOf (run (run s l1).1 l2).1)
          (run (run s l1).1 l2).1.registry u e2 :=
      broadcast_mem h2 (envOf_open_iff.mpr h2o)
    obtain ⟨w1a, w1b, hW1⟩ := List.append_of_mem hw1
    obtain ⟨w2a, w2b, hW2⟩ := List.append_of_mem hw2
    refine ⟨(run s l1).2 ++ w1a,
      w1b ++ ((run (run s l1).1 l2).2 ++ w2a),
      w2b ++ (run (run (run s l1).1 l2).1 l3).2, ?_⟩
    rw [run_append_log, run_cons_bcast_log, run_append_log,
      run_cons_bcast_log, hW1, hW2]
    simp [List.append_assoc]

/-- Witness for C9: concrete runs — a closed connection 5 receives
nothing; an unregistered connection 9 is excluded from a broadcast's
writes; connection 0, registered by AUTH and open throughout, receives
two events broadcast to `u1` in order. -/
theorem broadcast_temporal_properties_witness :
    (((0 : Conn),
        serialize ⟨"TASK_CREATED", EventPayload.idPayload 7⟩) :
          Conn × String).1 ≠ 5 ∧
    ((9 : Conn),
        serialize ⟨"TASK_CREATED", EventPayload.idPayload 7⟩) ∉
      broadcastToUser
        (envOf ⟨applyRegOps Registry.empty [RegOp.reg "u1" 0], []⟩)
        (applyRegOps Registry.empty [RegOp.reg "u1" 0]) "u1"
        ⟨"TASK_CREATED", EventPayload.idPayload 7⟩ ∧
    (∃ A B C,
      (run initState
        ([Op.message 0 (ParsedMsg.json "AUTH" (some "u1"))] ++
          Op.bcast "u1" ⟨"TASK_CREATED", EventPayload.idPayload 7⟩ ::
            ([] ++
              Op.bcast "u1" ⟨"TASK_UPDATED", EventPayload.idPayload 7⟩ ::
                []))).2 =
        A ++ (0, serialize ⟨"TASK_CREATED", EventPayload.idPayload 7⟩) ::
          (B ++ (0, serialize ⟨"TASK_UPDATED", EventPayload.idPayload 7⟩) ::
            C)) :=
  ⟨broadcast_temporal_properties.1
      ⟨applyRegOps Registry.empty [RegOp.reg "u1" 0, RegOp.reg "u1" 5], [5]⟩
      [Op.bcast "u1" ⟨"TASK_CREATED", EventPayload.idPayload 7⟩] 5
      (by decide)
      (0, serialize ⟨"TASK_CREATED", EventPayload.idPayload 7⟩) (by decide),
   (broadcast_temporal_properties.2.1
      ⟨applyRegOps Registry.empty [RegOp.reg "u1" 0], []⟩ "u1"
      ⟨"TASK_CREATED", EventPayload.idPayload 7⟩ [] 9).2 (by decide)
      (serialize ⟨"TASK_CREATED", EventPayload.idPayload 7⟩),
   broadcast_temporal_properties.2.2 initState
      [Op.message 0 (ParsedMsg.json "AUTH" (some "u1"))] [] [] "u1"
      ⟨"TASK_CREATED", EventPayload.idPayload 7⟩
      ⟨"TASK_UPDATED", EventPayload.idPayload 7⟩ 0
      (by decide) (by decide) (by decide) (by decide)⟩

/-- C10: a broadcast step leaves the registry untouched — the state after
`broadcastToUser` has exactly the registry of the state before, so every
identity's connection set is unchanged, whatever the open/closed states of
the connections encountered. -/
theorem broadcast_preserves_registry :
    ∀ (s : SysState) (u : Identity) (e : Event),
      (step s (Op.bcast u e)).1.registry = s.registry ∧
      ∀ i, connectionsFor ((step s (Op.bcast u e)).1.registry) i =
        connectionsFor s.registry i := by
  intro s u e
  exact ⟨rfl, fun i => rfl⟩

end SmartTaskManager
